import Mathlib

/-!
Shallow embedding of the cfg exporter (src/main.py): line parsing,
file-name identity resolution, variable filtering, aggregation, and the
team file locator. Python strings are modelled as lists of characters
(wrapped in `String` at the record level); Python dicts as
insertion-ordered association lists with in-place overwrite on existing
keys, matching Python dict semantics.
-/

/-- Characters removed by Python's default `str.strip` (ASCII whitespace). -/
def isPySpace (c : Char) : Bool :=
  c == ' ' || c == '\t' || c == '\n' || c == '\r' || c == '\x0b' || c == '\x0c'

/-- Python `s.strip()` on a character list. -/
def pyStrip (s : List Char) : List Char :=
  ((s.dropWhile isPySpace).reverse.dropWhile isPySpace).reverse

/-- Python `s.rstrip(chars)`: drop trailing characters that are members of `chars`. -/
def pyRstrip (chars s : List Char) : List Char :=
  (s.reverse.dropWhile (fun c => chars.contains c)).reverse

/-- Python `line.startswith("#")`. -/
def startsWithHash : List Char → Bool
  | [] => false
  | c :: _ => c == '#'

/-- Auxiliary for `splitChar`: the first group and the remaining groups. -/
def splitCharAux (c : Char) : List Char → List Char × List (List Char)
  | [] => ([], [])
  | x :: xs =>
    let r := splitCharAux c xs
    if x == c then ([], r.1 :: r.2) else (x :: r.1, r.2)

/-- Python `s.split(sep)` for a one-character separator: splits at every
occurrence, keeping empty groups. -/
def splitChar (c : Char) (s : List Char) : List (List Char) :=
  (splitCharAux c s).1 :: (splitCharAux c s).2

/-- Number of occurrences of a character in a list. -/
def countChar (c : Char) : List Char → Nat
  | [] => 0
  | x :: xs => (if x == c then 1 else 0) + countChar c xs

/-- Fuelled scan of Python `s.replace(pat, "")`: drop each non-overlapping
occurrence of `pat`, left to right. -/
def pyReplaceEmptyAux (pat : List Char) : Nat → List Char → List Char
  | _, [] => []
  | 0, s => s
  | fuel + 1, x :: xs =>
    if pat.isPrefixOf (x :: xs) && !pat.isEmpty then
      pyReplaceEmptyAux pat fuel ((x :: xs).drop pat.length)
    else
      x :: pyReplaceEmptyAux pat fuel xs

/-- Python `s.replace(pat, "")` for a non-empty pattern. -/
def pyReplaceEmpty (pat s : List Char) : List Char :=
  pyReplaceEmptyAux pat s.length s

/-- Result of processing one line of a cfg file. -/
inductive LineResult where
  | skip : LineResult
  | entry (key value : List Char) : LineResult
  | malformed : LineResult
deriving DecidableEq

/-- The single-quote character. -/
def quoteChar : Char := Char.ofNat 39

/-- One line of `ConfigFileUtils.dict_parse_cfg` (src/main.py lines 128-133):
skip when the stripped line is empty or the line starts with a hash;
otherwise the line must split on spaces into exactly two parts and the
second part must split on the equals sign into exactly two parts, giving a
stripped key and a stripped, quote-free value. -/
def parseCfgLine (line : List Char) : LineResult :=
  if (pyStrip line).isEmpty || startsWithHash line then
    .skip
  else
    match splitChar ' ' line with
    | [_, assignment] =>
      match splitChar '=' assignment with
      | [key, value] =>
        .entry (pyStrip key) ((pyStrip value).filter (fun ch => ch != quoteChar))
      | _ => .malformed
    | _ => .malformed

abbrev VarDict := List (String × String)
abbrev TypeDict := List (String × VarDict)
abbrev ClusterDict := List (String × TypeDict)

/-- Python `d[k]`, on association lists whose keys are unique. -/
def dget {β : Type} : List (String × β) → String → Option β
  | [], _ => none
  | (k', v) :: rest, k => if k' = k then some v else dget rest k

/-- Python `d[k] = v` (also one-entry `d.update({k: v})`): overwrite in
place when the key is present, append otherwise. -/
def dset {β : Type} : List (String × β) → String → β → List (String × β)
  | [], k, v => [(k, v)]
  | (k', v') :: rest, k, v =>
    if k' = k then (k', v) :: rest else (k', v') :: dset rest k v

/-- Python `d.setdefault(k, v)` (the resulting dict). -/
def dsetdefault {β : Type} (d : List (String × β)) (k : String) (v : β) :
    List (String × β) :=
  match dget d k with
  | some _ => d
  | none => d ++ [(k, v)]

/-- Nested lookup: cluster then deployment type. -/
def dget2 (d : ClusterDict) (c t : String) : Option VarDict :=
  (dget d c).bind (fun inner => dget inner t)

/-- Nested lookup: cluster, deployment type, then variable name. -/
def dget3 (d : ClusterDict) (c t k : String) : Option String :=
  (dget2 d c t).bind (fun vars => dget vars k)

/-- The line-folding loop of `ConfigFileUtils.dict_parse_cfg`. -/
def dict_parse_lines (cfg : VarDict) : List String → Except String VarDict
  | [] => .ok cfg
  | line :: rest =>
    match parseCfgLine line.data with
    | .skip => dict_parse_lines cfg rest
    | .entry k v => dict_parse_lines (dset cfg (String.mk k) (String.mk v)) rest
    | .malformed => .error ("malformed line: " ++ line)

/-- `ConfigFileUtils.dict_parse_cfg` (src/main.py lines 110-134), with the
file body given as its list of lines. -/
def ConfigFileUtils.dict_parse_cfg (cfg_lines : List String) : Except String VarDict :=
  dict_parse_lines [] cfg_lines

structure DeploymentFile where
  path : String
  -- the source attribute is named `variables`, a reserved word in Lean 4
  vars : VarDict
  team_name : String
  cluster_name : String
  deployment_type : String
deriving DecidableEq

/-- `DeploymentFile.create` (src/main.py lines 77-98), with the parsed
variables passed in and the filesystem existence check omitted (a pure
name cannot be tested for existence). -/
def DeploymentFile.create (cfg_name : String) (vars : VarDict) :
    Except String DeploymentFile :=
  if ".cfg".data.isSuffixOf cfg_name.data then
    match splitChar '_' cfg_name.data with
    | team :: cluster :: _ :: _ =>
      .ok { path := cfg_name
            vars := vars
            team_name := String.mk team
            cluster_name := String.mk cluster
            deployment_type :=
              String.mk (pyRstrip ".cfg".data
                (pyReplaceEmpty (team ++ '_' :: (cluster ++ ['_'])) cfg_name.data)) }
    | _ => .error ("Invalid file name format: " ++ cfg_name)
  else
    .error ("Invalid CFG File: " ++ cfg_name)

/-- The dict comprehension inside `DeploymentFile.exclude_github_vars`. -/
def exclude_vars (github_var_names : List String) (vs : VarDict) : VarDict :=
  vs.filter (fun kv => !(github_var_names.contains kv.1))

/-- `DeploymentFile.exclude_github_vars` (src/main.py lines 100-106), with
the globally shared variable names passed explicitly instead of read from
the process-wide config. -/
def DeploymentFile.exclude_github_vars (self : DeploymentFile)
    (github_var_names : List String) : VarDict :=
  exclude_vars github_var_names self.vars

/-- `CFGExporter.deployment_mapper` (src/main.py lines 207-216), with the
in-place mutation of the data dict rendered as state passing. -/
def CFGExporter.deployment_mapper (github_var_names : List String)
    (data_dict : ClusterDict) (deployment : DeploymentFile) : ClusterDict :=
  let d := dsetdefault data_dict deployment.cluster_name []
  dset d deployment.cluster_name
    (dset ((dget d deployment.cluster_name).getD []) deployment.deployment_type
      (deployment.exclude_github_vars github_var_names))

structure AppConfig where
  cfg_path : String
  team_names : List String
  github_var_names : List String

/-- `get_team_names` (src/main.py lines 45-47); the set's iteration order
is modelled by the list order. -/
def get_team_names (cfg : AppConfig) : List String := cfg.team_names

/-- Python `", ".join(l)`. -/
def joinComma : List String → String
  | [] => ""
  | [x] => x
  | x :: xs => x ++ ", " ++ joinComma xs

/-- `unknown_team_name` (src/main.py lines 63-66): the error message carried
by the raised `ValueError`. -/
def unknown_team_name (cfg : AppConfig) (team : String) : String :=
  "Unknown team name: " ++ team ++ ". Valid teams are: " ++ joinComma (get_team_names cfg)

/-- Whether a base name matches the glob `<team>_*.cfg`. -/
def glob_match_team (team name : String) : Bool :=
  (team.data ++ ['_']).isPrefixOf name.data &&
    ".cfg".data.isSuffixOf name.data &&
    decide (team.data.length + 5 ≤ name.data.length)

/-- `ConfigFileUtils.iter_team_cfgs` (src/main.py lines 136-159), with the
recursive directory listing of plain files passed in as `fs` and the lazily
yielded sequence materialized as a list. -/
def ConfigFileUtils.iter_team_cfgs (cfg : AppConfig) (fs : List String)
    (team_name : String) : Except String (List String) :=
  if team_name ∈ get_team_names cfg then
    .ok (fs.filter (glob_match_team team_name))
  else
    .error (unknown_team_name cfg team_name)

/-- Modelled from the spec claim wording for the line parser: splitting a
line at the FIRST occurrence of a character, Python `s.split(c, 1)`;
`none` when the character is absent (a one-part split). -/
def spec_split_on_first (c : Char) : List Char → Option (List Char × List Char)
  | [] => none
  | x :: xs =>
    if x == c then some ([], xs)
    else
      match spec_split_on_first c xs with
      | none => none
      | some (a, b) => some (x :: a, b)

/-- The needle occurs contiguously inside the haystack. -/
def appearsIn (needle hay : List Char) : Prop :=
  ∃ s t, hay = s ++ needle ++ t

theorem dget_dset_self {β : Type} (d : List (String × β)) (k : String) (v : β) :
    dget (dset d k v) k = some v := by
  induction d with
  | nil => simp [dset, dget]
  | cons kv rest ih =>
    obtain ⟨k', v'⟩ := kv
    by_cases h : k' = k
    · simp [dset, dget, h]
    · simp [dset, dget, h, ih]

theorem dget_dset_ne {β : Type} (d : List (String × β)) (k k' : String) (v : β)
    (h : k ≠ k') : dget (dset d k v) k' = dget d k' := by
  induction d with
  | nil => simp [dset, dget, h]
  | cons kv rest ih =>
    obtain ⟨a, b⟩ := kv
    by_cases ha : a = k
    · subst ha
      simp [dset, dget, h]
    · simp [dset, dget, ha, ih]

theorem dget_append_of_none {β : Type} (d e : List (String × β)) (k : String)
    (h : dget d k = none) : dget (d ++ e) k = dget e k := by
  induction d with
  | nil => simp
  | cons kv rest ih =>
    obtain ⟨a, b⟩ := kv
    by_cases ha : a = k
    · simp [dget, ha] at h
    · simp [dget, ha] at h ⊢
      exact ih h

theorem dget_append_of_some {β : Type} (d e : List (String × β)) (k : String)
    (v : β) (h : dget d k = some v) : dget (d ++ e) k = some v := by
  induction d with
  | nil => simp [dget] at h
  | cons kv rest ih =>
    obtain ⟨a, b⟩ := kv
    by_cases ha : a = k
    · simp [dget, ha] at h ⊢
      exact h
    · simp [dget, ha] at h ⊢
      exact ih h

theorem dget_dsetdefault_self {β : Type} (d : List (String × β)) (k : String)
    (v : β) : dget (dsetdefault d k v) k = some ((dget d k).getD v) := by
  cases h : dget d k with
  | some w => simp [dsetdefault, h]
  | none =>
    simp only [dsetdefault, h]
    rw [dget_append_of_none d _ k h]
    simp [dget]

theorem dget_dsetdefault_ne {β : Type} (d : List (String × β)) (k k' : String)
    (v : β) (h : k ≠ k') : dget (dsetdefault d k v) k' = dget d k' := by
  cases hd : dget d k with
  | some w => simp [dsetdefault, hd]
  | none =>
    simp only [dsetdefault, hd]
    cases hd' : dget d k' with
    | some w => exact dget_append_of_some d _ k' w hd'
    | none =>
      rw [dget_append_of_none d _ k' hd']
      simp [dget, h]

theorem splitCharAux_count (c : Char) (s : List Char) :
    (splitCharAux c s).2.length = countChar c s := by
  induction s with
  | nil => rfl
  | cons x xs ih =>
    cases h : (x == c)
    · simp [splitCharAux, countChar, h, ih]
    · simp [splitCharAux, countChar, h, ih]
      omega

theorem splitChar_length (c : Char) (s : List Char) :
    (splitChar c s).length = countChar c s + 1 := by
  simp [splitChar, splitCharAux_count]

theorem pyStrip_empty_of_all (s : List Char) (h : s.all isPySpace = true) :
    (pyStrip s).isEmpty = true := by
  have h1 : s.dropWhile isPySpace = [] :=
    List.dropWhile_eq_nil_iff.mpr (List.all_eq_true.mp h)
  simp [pyStrip, h1]

theorem exclude_vars_idem (gh : List String) (vs : VarDict) :
    exclude_vars gh (exclude_vars gh vs) = exclude_vars gh vs := by
  induction vs with
  | nil => rfl
  | cons kv rest ih =>
    unfold exclude_vars at ih ⊢
    rw [List.filter_cons]
    by_cases h : (!gh.contains kv.1) = true
    · rw [if_pos h, List.filter_cons, if_pos h, ih]
    · rw [if_neg h, ih]

theorem dget_exclude_of_mem (gh : List String) (vs : VarDict) (k : String)
    (h : k ∈ gh) : dget (exclude_vars gh vs) k = none := by
  induction vs with
  | nil => rfl
  | cons kv rest ih =>
    obtain ⟨a, b⟩ := kv
    unfold exclude_vars at ih ⊢
    rw [List.filter_cons]
    by_cases hc : (!gh.contains (a, b).1) = true
    · rw [if_pos hc]
      have hnm : a ∉ gh := by
        intro hm
        have ht : gh.contains a = true := by
          simpa [List.contains, List.elem_eq_mem] using hm
        rw [ht] at hc
        simp at hc
      have hk : a ≠ k := fun he => hnm (he ▸ h)
      simp only [dget, hk, if_neg]
      exact ih
    · rw [if_neg hc]
      exact ih

theorem mapper_dget2_self (gh : List String) (data : ClusterDict)
    (r : DeploymentFile) :
    dget2 (CFGExporter.deployment_mapper gh data r) r.cluster_name r.deployment_type
      = some (r.exclude_github_vars gh) := by
  simp [CFGExporter.deployment_mapper, dget2, dget_dset_self]

theorem mapper_dget_ne (gh : List String) (data : ClusterDict)
    (r : DeploymentFile) (c : String) (h : c ≠ r.cluster_name) :
    dget (CFGExporter.deployment_mapper gh data r) c = dget data c := by
  unfold CFGExporter.deployment_mapper
  rw [dget_dset_ne _ _ _ _ (Ne.symm h), dget_dsetdefault_ne _ _ _ _ (Ne.symm h)]

theorem mapper_dget2_ne (gh : List String) (data : ClusterDict)
    (r : DeploymentFile) (t : String) (h : t ≠ r.deployment_type) :
    dget2 (CFGExporter.deployment_mapper gh data r) r.cluster_name t
      = dget2 data r.cluster_name t := by
  unfold CFGExporter.deployment_mapper dget2
  rw [dget_dset_self]
  simp only [Option.some_bind]
  rw [dget_dset_ne _ _ _ _ (Ne.symm h), dget_dsetdefault_self]
  cases hd : dget data r.cluster_name with
  | some inner => simp [hd]
  | none => simp [hd, dget]

theorem string_data_append (a b : String) : (a ++ b).data = a.data ++ b.data := by
  cases a
  cases b
  rfl

theorem appearsIn_self (n : List Char) : appearsIn n n :=
  ⟨[], [], by simp⟩

theorem appearsIn_append_left (n hay pre : List Char) (h : appearsIn n hay) :
    appearsIn n (pre ++ hay) := by
  obtain ⟨s, t, ht⟩ := h
  exact ⟨pre ++ s, t, by simp [ht]⟩

theorem appearsIn_append_right (n hay post : List Char) (h : appearsIn n hay) :
    appearsIn n (hay ++ post) := by
  obtain ⟨s, t, ht⟩ := h
  exact ⟨s, t ++ post, by simp [ht]⟩

theorem appearsIn_joinComma (l : List String) (n : String) (h : n ∈ l) :
    appearsIn n.data (joinComma l).data := by
  induction l with
  | nil => cases h
  | cons x xs ih =>
    cases xs with
    | nil =>
      have hx : n = x := by simpa using h
      subst hx
      exact appearsIn_self n.data
    | cons y ys =>
      rcases List.mem_cons.mp h with hx | hxs
      · subst hx
        show appearsIn n.data ((n ++ ", ") ++ joinComma (y :: ys)).data
        rw [string_data_append, string_data_append]
        rw [List.append_assoc]
        exact appearsIn_append_right _ _ _ (appearsIn_self n.data)
      · show appearsIn n.data ((x ++ ", ") ++ joinComma (y :: ys)).data
        rw [string_data_append]
        exact appearsIn_append_left _ _ _ (ih hxs)

/-- C1: the claim says that for a file base name a_b_c.cfg, identity
resolution removes the extension ".cfg" as an exact suffix, so
"a_b_proc.cfg" should yield deployment_type "proc". The code instead uses
a trailing character-class strip, removing every trailing character that
is a member of ".cfg": evaluating the code at this failing input yields
deployment_type "pro". -/
theorem create_rstrip_eval :
    DeploymentFile.create "a_b_proc.cfg" [] =
      .ok { path := "a_b_proc.cfg", vars := [], team_name := "a",
            cluster_name := "b", deployment_type := "pro" } := rfl

/-- C4: the records built from teamA_c1_web.cfg with variables PORT=8080 and
SECRET=x, and from teamA_c1_db.cfg with variable PORT=5432, with SECRET
globally shared, fold through the default deployment mapper from an empty
accumulator to exactly the nested mapping sending c1 to web with PORT=8080
and db with PORT=5432. -/
theorem export_scenario_eval :
    (DeploymentFile.create "teamA_c1_web.cfg" [("PORT", "8080"), ("SECRET", "x")]).bind
        (fun r1 =>
          (DeploymentFile.create "teamA_c1_db.cfg" [("PORT", "5432")]).map
            (fun r2 => List.foldl (CFGExporter.deployment_mapper ["SECRET"]) [] [r1, r2]))
      = .ok [("c1", [("web", [("PORT", "8080")]), ("db", [("PORT", "5432")])])] := rfl

/-- C7: variable filtering is idempotent: filtering an already-filtered
mapping with the same exclusion set returns it unchanged. -/
theorem exclude_vars_idempotent (gh : List String) (vs : VarDict) :
    exclude_vars gh (exclude_vars gh vs) = exclude_vars gh vs :=
  exclude_vars_idem gh vs

/-- C3: folding two records with identical cluster name and deployment type
and differing variables through the default deployment mapper leaves only
the second record's filtered variables stored at the shared cluster and
deployment-type key: an overwrite, not a merge. -/
theorem deployment_mapper_overwrite (gh : List String) (acc : ClusterDict)
    (r1 r2 : DeploymentFile)
    (_hc : r1.cluster_name = r2.cluster_name)
    (_ht : r1.deployment_type = r2.deployment_type)
    (_hv : r1.vars ≠ r2.vars) :
    dget2 (CFGExporter.deployment_mapper gh
          (CFGExporter.deployment_mapper gh acc r1) r2)
        r2.cluster_name r2.deployment_type
      = some (r2.exclude_github_vars gh) :=
  mapper_dget2_self gh _ r2

/-- C3 witness: two concrete records with cluster c and type a, variables
K=1 then K=2; after folding both, the stored variables are exactly K=2. -/
theorem deployment_mapper_overwrite_witness :
    dget2 (CFGExporter.deployment_mapper ["G"]
          (CFGExporter.deployment_mapper ["G"] []
            ⟨"t_c_a.cfg", [("K", "1")], "t", "c", "a"⟩)
          ⟨"t_c_a.cfg", [("K", "2")], "t", "c", "a"⟩)
        "c" "a"
      = some [("K", "2")] := by
  rw [deployment_mapper_overwrite ["G"] []
    ⟨"t_c_a.cfg", [("K", "1")], "t", "c", "a"⟩
    ⟨"t_c_a.cfg", [("K", "2")], "t", "c", "a"⟩ rfl rfl (by decide)]
  rfl

/-- C9: the default deployment mapper modifies only the entry at the
record's cluster and deployment type: the entry under any other cluster
key, and the entry under any other deployment type of the record's own
cluster, are unchanged. -/
theorem deployment_mapper_frame (gh : List String) (data : ClusterDict)
    (r : DeploymentFile) :
    (∀ c, c ≠ r.cluster_name →
        dget (CFGExporter.deployment_mapper gh data r) c = dget data c) ∧
    (∀ t, t ≠ r.deployment_type →
        dget2 (CFGExporter.deployment_mapper gh data r) r.cluster_name t
          = dget2 data r.cluster_name t) :=
  ⟨fun c hc => mapper_dget_ne gh data r c hc,
   fun t ht => mapper_dget2_ne gh data r t ht⟩

/-- C9 witness: at a concrete accumulator and record, the cluster d and the
deployment type b of cluster c are untouched by the mapper. -/
theorem deployment_mapper_frame_witness :
    dget (CFGExporter.deployment_mapper ["G"]
          [("d", [("w", [("P", "1")])])]
          ⟨"t_c_a.cfg", [("K", "2")], "t", "c", "a"⟩) "d"
      = dget [("d", [("w", [("P", "1")])])] "d" ∧
    dget2 (CFGExporter.deployment_mapper ["G"]
          [("d", [("w", [("P", "1")])])]
          ⟨"t_c_a.cfg", [("K", "2")], "t", "c", "a"⟩) "c" "b"
      = dget2 [("d", [("w", [("P", "1")])])] "c" "b" :=
  ⟨(deployment_mapper_frame ["G"] [("d", [("w", [("P", "1")])])]
      ⟨"t_c_a.cfg", [("K", "2")], "t", "c", "a"⟩).1 "d" (by decide),
   (deployment_mapper_frame ["G"] [("d", [("w", [("P", "1")])])]
      ⟨"t_c_a.cfg", [("K", "2")], "t", "c", "a"⟩).2 "b" (by decide)⟩

/-- C8: for a team name outside the configured team names, the team file
locator fails with the unknown-team error, yielding no file, and the error
message contains every configured team name. -/
theorem iter_team_cfgs_unknown (cfg : AppConfig) (fs : List String)
    (team : String) (h : team ∉ get_team_names cfg) :
    ConfigFileUtils.iter_team_cfgs cfg fs team
      = .error (unknown_team_name cfg team) ∧
    ∀ n ∈ get_team_names cfg,
      appearsIn n.data (unknown_team_name cfg team).data := by
  constructor
  · unfold ConfigFileUtils.iter_team_cfgs
    rw [if_neg h]
  · intro n hn
    unfold unknown_team_name
    rw [string_data_append]
    exact appearsIn_append_left _ _ _ (appearsIn_joinComma _ n hn)

/-- C8 witness: the unknown team ghost against configured teams alpha and
beta produces the unknown-team error, whose message contains both alpha
and beta. -/
theorem iter_team_cfgs_unknown_witness :
    ConfigFileUtils.iter_team_cfgs ⟨".", ["alpha", "beta"], []⟩
        ["alpha_c_x.cfg"] "ghost"
      = .error (unknown_team_name ⟨".", ["alpha", "beta"], []⟩ "ghost") ∧
    appearsIn "alpha".data
      (unknown_team_name ⟨".", ["alpha", "beta"], []⟩ "ghost").data ∧
    appearsIn "beta".data
      (unknown_team_name ⟨".", ["alpha", "beta"], []⟩ "ghost").data :=
  ⟨(iter_team_cfgs_unknown ⟨".", ["alpha", "beta"], []⟩ ["alpha_c_x.cfg"]
      "ghost" (by decide)).1,
   (iter_team_cfgs_unknown ⟨".", ["alpha", "beta"], []⟩ ["alpha_c_x.cfg"]
      "ghost" (by decide)).2 "alpha" (by decide),
   (iter_team_cfgs_unknown ⟨".", ["alpha", "beta"], []⟩ ["alpha_c_x.cfg"]
      "ghost" (by decide)).2 "beta" (by decide)⟩

theorem mapper_step_no_github (gh : List String) (data : ClusterDict)
    (r : DeploymentFile)
    (hinv : ∀ c t k, k ∈ gh → dget3 data c t k = none) :
    ∀ c t k, k ∈ gh →
      dget3 (CFGExporter.deployment_mapper gh data r) c t k = none := by
  intro c t k hk
  by_cases hc : c = r.cluster_name
  · subst hc
    by_cases ht : t = r.deployment_type
    · subst ht
      unfold dget3
      rw [mapper_dget2_self]
      simp only [Option.some_bind]
      exact dget_exclude_of_mem gh r.vars k hk
    · unfold dget3
      rw [mapper_dget2_ne gh data r t ht]
      exact hinv _ _ _ hk
  · unfold dget3 dget2
    rw [mapper_dget_ne gh data r c hc]
    have hv := hinv c t k hk
    unfold dget3 dget2 at hv
    exact hv

theorem fold_no_github_aux (gh : List String) (recs : List DeploymentFile) :
    ∀ data : ClusterDict,
      (∀ c t k, k ∈ gh → dget3 data c t k = none) →
      ∀ c t k, k ∈ gh →
        dget3 (List.foldl (CFGExporter.deployment_mapper gh) data recs) c t k
          = none := by
  induction recs with
  | nil => exact fun data hinv c t k hk => hinv c t k hk
  | cons r rest ih =>
    intro data hinv c t k hk
    exact ih (CFGExporter.deployment_mapper gh data r)
      (mapper_step_no_github gh data r hinv) c t k hk

/-- C10: folding any finite sequence of records through the default
deployment mapper from an empty accumulator yields a mapping that stores
no globally-shared variable name under any cluster and deployment type. -/
theorem fold_no_github_vars (gh : List String) (recs : List DeploymentFile)
    (c t k : String) (hk : k ∈ gh) :
    dget3 (List.foldl (CFGExporter.deployment_mapper gh) [] recs) c t k
      = none :=
  fold_no_github_aux gh recs [] (fun _ _ _ _ => rfl) c t k hk

/-- C10 witness: a concrete record carrying SECRET folded from an empty
accumulator leaves no SECRET under its own cluster and type. -/
theorem fold_no_github_vars_witness :
    dget3 (List.foldl (CFGExporter.deployment_mapper ["SECRET"]) []
        [⟨"teamA_c1_web.cfg", [("PORT", "8080"), ("SECRET", "x")],
          "teamA", "c1", "web"⟩])
      "c1" "web" "SECRET" = none :=
  fold_no_github_vars ["SECRET"]
    [⟨"teamA_c1_web.cfg", [("PORT", "8080"), ("SECRET", "x")],
      "teamA", "c1", "web"⟩]
    "c1" "web" "SECRET" (by decide)

/-- C5 counterexample: the line " #k=v" has '#' as its first non-whitespace
character, so the claim says it is skipped; the parser instead accepts it
and contributes the entry mapping "#k" to "v". -/
theorem hash_after_space_cex :
    (" #k=v".data.dropWhile isPySpace).head? = some '#' ∧
    parseCfgLine " #k=v".data = .entry "#k".data "v".data ∧
    dict_parse_lines [] [" #k=v"] = .ok [("#k", "v")] :=
  ⟨by decide, by decide, rfl⟩

/-- C5 amended: every whitespace-only line, and every line whose FIRST
character is '#', is skipped: it contributes no entry and raises no error.
A line with leading whitespace before '#' is parsed instead of skipped. -/
theorem blank_or_hash_skip (line : String)
    (h : line.data.all isPySpace = true ∨ startsWithHash line.data = true) :
    parseCfgLine line.data = .skip ∧
    ∀ cfg rest, dict_parse_lines cfg (line :: rest) = dict_parse_lines cfg rest := by
  have hskip : parseCfgLine line.data = .skip := by
    unfold parseCfgLine
    rcases h with hb | hh
    · rw [pyStrip_empty_of_all _ hb]
      simp
    · rw [hh]
      simp
  refine ⟨hskip, fun cfg rest => ?_⟩
  show (match parseCfgLine line.data with
        | LineResult.skip => dict_parse_lines cfg rest
        | LineResult.entry k v =>
            dict_parse_lines (dset cfg (String.mk k) (String.mk v)) rest
        | LineResult.malformed => Except.error ("malformed line: " ++ line))
      = dict_parse_lines cfg rest
  rw [hskip]

/-- C5 witness: a comment line starting at column zero is skipped and drops
out of the line fold. -/
theorem blank_or_hash_skip_witness :
    parseCfgLine "# note".data = LineResult.skip ∧
    dict_parse_lines [("A", "1")] ["# note"] = dict_parse_lines [("A", "1")] [] :=
  ⟨(blank_or_hash_skip "# note" (by decide)).1,
   (blank_or_hash_skip "# note" (by decide)).2 [("A", "1")] []⟩

/-- C6 counterexample: on the line "x k=a=b" the assignment contains two
equals signs; the claim says the value after the first equals sign is kept
intact, but the parser raises a malformed-line error instead. -/
theorem value_with_eq_cex :
    parseCfgLine "x k=a=b".data = .malformed ∧
    parseCfgLine "x k=a=b".data ≠ .entry "k".data "a=b".data := by
  decide

/-- C6 amended: for every accepted line, the key is recorded with
surrounding whitespace trimmed, and the value with surrounding whitespace
trimmed and every single-quote character removed, so the recorded value
contains no single quote; an assignment whose second split part does not
exist (more or fewer than one equals sign) is rejected rather than kept. -/
theorem entry_trim_unquote (line t a k v : List Char)
    (h : ((pyStrip line).isEmpty || startsWithHash line) = false)
    (hs : splitChar ' ' line = [t, a])
    (he : splitChar '=' a = [k, v]) :
    parseCfgLine line =
      .entry (pyStrip k) ((pyStrip v).filter (fun ch => ch != quoteChar)) ∧
    ∀ ch ∈ (pyStrip v).filter (fun ch => ch != quoteChar), ch ≠ quoteChar := by
  constructor
  · unfold parseCfgLine
    rw [h, hs]
    simp [he]
  · intro ch hc
    have hp := (List.mem_filter.mp hc).2
    simpa using hp

/-- C6 witness: the line with token x and assignment KEY=. 'v'. surrounded
by tab characters parses to the trimmed key KEY and the unquoted value v. -/
theorem entry_trim_unquote_witness :
    parseCfgLine "x \tKEY\t=\t'v'\t".data = LineResult.entry "KEY".data "v".data := by
  have h := (entry_trim_unquote "x \tKEY\t=\t'v'\t".data "x".data
    "\tKEY\t=\t'v'\t".data "\tKEY\t".data "\t'v'\t".data
    (by decide) (by decide) (by decide)).1
  exact h.trans (by decide)

/-- C2 counterexample: at the line "a b=c d", splitting on the first space
yields exactly two parts and the part after the first space contains
exactly one equals sign, so the claimed equivalence says the line is
accepted; the parser raises a malformed-line error instead, because the
source splits on every space. -/
theorem first_space_claim_cex :
    ¬ (parseCfgLine "a b=c d".data = .malformed ↔
        ((spec_split_on_first ' ' "a b=c d".data).isNone = true ∨
          (spec_split_on_first ' ' "a b=c d".data).map
              (fun p => countChar '=' p.2) ≠ some 1)) := by
  decide

/-- C2 amended: for every non-skipped line, the parser raises a
malformed-line error iff the line does not contain exactly one space, or
the part after that space does not contain exactly one equals sign; every
line passing both checks is accepted as one key-value entry. -/
theorem malformed_iff_one_space_one_eq (line : List Char)
    (h : ((pyStrip line).isEmpty || startsWithHash line) = false) :
    (parseCfgLine line = .malformed ↔
      countChar ' ' line ≠ 1 ∨
        ∃ t a, splitChar ' ' line = [t, a] ∧ countChar '=' a ≠ 1) ∧
    (∀ t a, splitChar ' ' line = [t, a] → countChar '=' a = 1 →
      ∃ k v, parseCfgLine line = .entry k v) := by
  have hlen := splitChar_length ' ' line
  rcases hsp : splitChar ' ' line with _ | ⟨t, rest⟩
  · rw [hsp] at hlen
    simp only [List.length_nil] at hlen
    omega
  rcases rest with _ | ⟨a, rest2⟩
  · -- the line contains no space: one part
    rw [hsp] at hlen
    simp only [List.length_cons, List.length_nil] at hlen
    have hM : parseCfgLine line = LineResult.malformed := by
      unfold parseCfgLine
      rw [h, hsp]
      simp
    constructor
    · rw [hM]
      constructor
      · intro _
        left
        omega
      · intro _
        rfl
    · intro t' a' hta
      simp at hta
  rcases rest2 with _ | ⟨x, rest3⟩
  · -- the line contains exactly one space: two parts
    rw [hsp] at hlen
    simp only [List.length_cons, List.length_nil] at hlen
    have hlen2 := splitChar_length '=' a
    rcases hsp2 : splitChar '=' a with _ | ⟨k, r2⟩
    · rw [hsp2] at hlen2
      simp only [List.length_nil] at hlen2
      omega
    rcases r2 with _ | ⟨v, r3⟩
    · -- the assignment contains no equals sign
      rw [hsp2] at hlen2
      simp only [List.length_cons, List.length_nil] at hlen2
      have hM : parseCfgLine line = LineResult.malformed := by
        unfold parseCfgLine
        rw [h, hsp]
        simp [hsp2]
      constructor
      · rw [hM]
        constructor
        · intro _
          right
          exact ⟨t, a, rfl, by omega⟩
        · intro _
          rfl
      · intro t' a' hta hcnt
        simp only [List.cons.injEq, and_true] at hta
        obtain ⟨h1, h2⟩ := hta
        subst h2
        omega
    rcases r3 with _ | ⟨w, r4⟩
    · -- the assignment contains exactly one equals sign: accepted
      rw [hsp2] at hlen2
      simp only [List.length_cons, List.length_nil] at hlen2
      have hE : parseCfgLine line =
          LineResult.entry (pyStrip k)
            ((pyStrip v).filter (fun ch => ch != quoteChar)) := by
        unfold parseCfgLine
        rw [h, hsp]
        simp [hsp2]
      constructor
      · rw [hE]
        constructor
        · intro hbad
          exact LineResult.noConfusion hbad
        · rintro (h1 | ⟨t', a', hta, hcnt⟩)
          · omega
          · simp only [List.cons.injEq, and_true] at hta
            obtain ⟨hh1, hh2⟩ := hta
            subst hh2
            omega
      · intro t' a' hta hcnt
        exact ⟨pyStrip k, (pyStrip v).filter (fun ch => ch != quoteChar), hE⟩
    · -- the assignment contains at least two equals signs
      rw [hsp2] at hlen2
      simp only [List.length_cons, List.length_nil] at hlen2
      have hM : parseCfgLine line = LineResult.malformed := by
        unfold parseCfgLine
        rw [h, hsp]
        simp [hsp2]
      constructor
      · rw [hM]
        constructor
        · intro _
          right
          exact ⟨t, a, rfl, by omega⟩
        · intro _
          rfl
      · intro t' a' hta hcnt
        simp only [List.cons.injEq, and_true] at hta
        obtain ⟨h1, h2⟩ := hta
        subst h2
        omega
  · -- the line contains at least two spaces: three or more parts
    rw [hsp] at hlen
    simp only [List.length_cons, List.length_nil] at hlen
    have hM : parseCfgLine line = LineResult.malformed := by
      unfold parseCfgLine
      rw [h, hsp]
      simp
    constructor
    · rw [hM]
      constructor
      · intro _
        left
        omega
      · intro _
        rfl
    · intro t' a' hta
      simp at hta

/-- C2 witness: the line with two spaces is reported malformed by the
amended equivalence. -/
theorem malformed_iff_one_space_one_eq_witness :
    parseCfgLine "x k=v w".data = LineResult.malformed :=
  (malformed_iff_one_space_one_eq "x k=v w".data (by decide)).1.mpr
    (Or.inl (by decide))
